import Mathlib

/-!
Verification of the completion-sync core (`src/lib/peloton/completion-sync.ts`).

The file gives a shallow embedding of the module's three pieces — the calendar
resolver `timestampToDateInTimezone`, the candidate index `plannedByDateAndRide`,
and the matching engine `syncCompletedWorkouts` — and proves run-level theorems
about them.  Collaborators that live outside the module (the Peloton client's
`getUserWorkouts`, the Supabase read of `planned_workouts`, and the per-row
update) are modelled as inputs: the fetch and the eligibility query as `Except`
values, the outcome of each row update as a boolean function of the row id.
Time-zone mathematics performed by the `Intl`/`date-fns-tz` libraries is
modelled by an environment supplying zone validity and zone offsets, while the
instant-to-civil-date step they both bottom out in is embedded concretely.
-/

namespace CompletionSync

/-! ### Calendar resolver -/

/-- Civil date `(year, month, day)` of a day count since the Unix epoch
(1970-01-01), by the standard civil-from-days algorithm that JavaScript date
arithmetic realises.  `Int./` is Euclidean division, which floors for the
positive literal divisors used here. -/
def civilFromDays (z : Int) : Int × Int × Int :=
  let zd := z + 719468
  let era := zd / 146097
  let doe := zd - era * 146097
  let yoe := (doe - doe / 1460 + doe / 36524 - doe / 146096) / 365
  let y := yoe + era * 400
  let doy := doe - (365 * yoe + yoe / 4 - yoe / 100)
  let mp := (5 * doy + 2) / 153
  let d := doy - (153 * mp + 2) / 5 + 1
  let m := if mp < 10 then mp + 3 else mp - 9
  (if m ≤ 2 then y + 1 else y, m, d)

/-- Zero-pad a month or day number to two characters, as the `MM` and `dd`
fields of the `yyyy-MM-dd` format string do. -/
def pad2 (n : Int) : String :=
  if 0 ≤ n ∧ n < 10 then "0" ++ toString n else toString n

/-- Zero-pad a year number to four characters, as the `yyyy` field does. -/
def pad4 (n : Int) : String :=
  if 0 ≤ n ∧ n < 10 then "000" ++ toString n
  else if 0 ≤ n ∧ n < 100 then "00" ++ toString n
  else if 0 ≤ n ∧ n < 1000 then "0" ++ toString n
  else toString n

/-- Render a civil date in the `yyyy-MM-dd` format. -/
def formatYMD (ymd : Int × Int × Int) : String :=
  pad4 ymd.1 ++ "-" ++ pad2 ymd.2.1 ++ "-" ++ pad2 ymd.2.2

/-- Time-zone environment: the behaviour of `Intl.DateTimeFormat` zone
validation (`validTz`), of `toZonedTime`'s zone shift in seconds at a given
instant (`tzOffset`), and of the process-local interpretation that plain
`format` applies (`localOffset`).  These live in the runtime, outside the
module under verification, so they are parameters of the embedding. -/
structure TzEnv where
  validTz : String → Bool
  tzOffset : String → Int → Int
  localOffset : Int → Int

/-- Embedding of `timestampToDateInTimezone` (completion-sync.ts:35): convert a
Unix timestamp (epoch seconds) to a date string in the supplied zone when that
zone is truthy and valid, and otherwise fall back to the process-local
interpretation.  An absent (`none`) or empty zone string is falsy in the
source's `timezone && isValidTimezone(timezone)` guard. -/
def timestampToDateInTimezone (env : TzEnv) (timestamp : Int)
    (timezone : Option String) : String :=
  match timezone with
  | some tz =>
      if tz != "" && env.validTz tz then
        formatYMD (civilFromDays ((timestamp + env.tzOffset tz timestamp) / 86400))
      else
        formatYMD (civilFromDays ((timestamp + env.localOffset timestamp) / 86400))
  | none => formatYMD (civilFromDays ((timestamp + env.localOffset timestamp) / 86400))

/-! ### Data model -/

/-- A workout record returned by the Peloton client with `joins: "ride"`.
`ride` carries the ride (class) id when the join produced one; the source's
`w.ride?.id` truthiness test also rejects an empty id string. -/
structure PelotonWorkout where
  id : String
  created_at : Int
  status : String
  ride : Option String
deriving DecidableEq, Repr

/-- A `planned_workouts` row as selected by the eligibility query
(`id, peloton_ride_id, scheduled_date, sort_order, peloton_workout_id`). -/
structure PlannedWorkout where
  id : String
  peloton_ride_id : String
  scheduled_date : String
  sort_order : Int
  peloton_workout_id : Option String
deriving DecidableEq, Repr

/-- The `PlannedWorkoutMatch` projection stored in the candidate index
(completion-sync.ts:13). -/
structure PlannedWorkoutMatch where
  id : String
  peloton_ride_id : String
  sort_order : Int
  peloton_workout_id : Option String
deriving DecidableEq, Repr

/-- The `CompletionSyncResult` summary (completion-sync.ts:7); `error := none`
models an `undefined` error field. -/
structure CompletionSyncResult where
  success : Bool
  matched : Nat
  error : Option String
deriving DecidableEq, Repr

/-- The filter applied to the fetched page (completion-sync.ts:74):
`w.status === "COMPLETE" && w.ride?.id`. -/
def eligibleWorkout (w : PelotonWorkout) : Bool :=
  w.status == "COMPLETE" &&
    (match w.ride with
     | some rid => rid != ""
     | none => false)

/-- Projection of a fetched row into the index entry pushed at
completion-sync.ts:114. -/
def toMatch (pw : PlannedWorkout) : PlannedWorkoutMatch :=
  { id := pw.id
    peloton_ride_id := pw.peloton_ride_id
    sort_order := pw.sort_order
    peloton_workout_id := pw.peloton_workout_id }

/-- The order induced by the comparator `(a, b) => a.sort_order - b.sort_order`
of completion-sync.ts:125. -/
def sortOrderR (a b : PlannedWorkoutMatch) : Prop :=
  a.sort_order ≤ b.sort_order

instance : DecidableRel sortOrderR := fun a b => Int.decLe a.sort_order b.sort_order

instance : IsTotal PlannedWorkoutMatch sortOrderR :=
  ⟨fun a b => Int.le_total a.sort_order b.sort_order⟩

instance : IsTrans PlannedWorkoutMatch sortOrderR :=
  ⟨fun _ _ _ => Int.le_trans⟩

instance : IsRefl PlannedWorkoutMatch sortOrderR :=
  ⟨fun a => Int.le_refl a.sort_order⟩

/-- Embedding of the candidate index (completion-sync.ts:103-127): the bucket
for a `(date, ride)` key holds exactly the eligible rows with that scheduled
date and ride id, in input order, then stably sorted by `sort_order` —
`Array.prototype.sort` is a stable sort, and looking a missing key up in the
nested maps yields the same empty list an absent bucket does. -/
def plannedByDateAndRide (ps : List PlannedWorkout) (dateKey rideId : String) :
    List PlannedWorkoutMatch :=
  List.insertionSort sortOrderR
    ((ps.filter fun pw =>
      pw.scheduled_date == dateKey && pw.peloton_ride_id == rideId).map toMatch)

/-! ### Matching engine -/

/-- The run-local mutable state of the matching loop (completion-sync.ts:130-133),
plus `writes`, the trace of update calls issued to the store, each recorded as
`(planned entry id, peloton workout id)` at the moment the update is issued. -/
structure SyncState where
  successfulUpdates : List String
  matchedPelotonWorkoutIds : List String
  attemptedIds : List String
  failedUpdates : Nat
  writes : List (String × String)
deriving DecidableEq, Repr

/-- The state at the top of the loop: empty trackers, zero failures. -/
def initState : SyncState :=
  { successfulUpdates := []
    matchedPelotonWorkoutIds := []
    attemptedIds := []
    failedUpdates := 0
    writes := [] }

/-- Inputs of one reconciliation run: the collaborators the module calls and
the options it receives.  `getUserWorkouts` takes the requested page limit and
either returns the page or raises (`Except.error (some msg)` for an `Error`
with that message, `Except.error none` for a non-`Error` thrown value);
`fetchPlanned` is the `{ data, error }` outcome of the eligibility query (a
`null` data with no error collapses with the empty list); `writeOk` tells
whether the row update for a given planned-workout id succeeds. -/
structure SyncInputs where
  getUserWorkouts : Nat → Except (Option String) (List PelotonWorkout)
  fetchPlanned : Except String (List PlannedWorkout)
  writeOk : String → Bool
  timezone : Option String
  tzEnv : TzEnv

/-- The page limit the source passes to the fetch (completion-sync.ts:70). -/
def pageLimit : Nat := 20

/-- One iteration of the matching loop (completion-sync.ts:135-179): skip an
activity already consumed this run, look the `(resolved date, ride id)` bucket
up, take the first candidate not yet attempted, mark it attempted and the
activity consumed, then issue the update and record its outcome. -/
def processWorkout (inp : SyncInputs) (ps : List PlannedWorkout)
    (st : SyncState) (w : PelotonWorkout) : SyncState :=
  let rideId := w.ride.getD ""
  let completionDate := timestampToDateInTimezone inp.tzEnv w.created_at inp.timezone
  if st.matchedPelotonWorkoutIds.contains w.id then st
  else
    let candidates := plannedByDateAndRide ps completionDate rideId
    match candidates.find? (fun c => !(st.attemptedIds.contains c.id)) with
    | none => st
    | some m =>
        let st1 :=
          { st with
            attemptedIds := st.attemptedIds ++ [m.id]
            matchedPelotonWorkoutIds := st.matchedPelotonWorkoutIds ++ [w.id]
            writes := st.writes ++ [(m.id, w.id)] }
        if inp.writeOk m.id then
          { st1 with successfulUpdates := st1.successfulUpdates ++ [m.id] }
        else
          { st1 with failedUpdates := st1.failedUpdates + 1 }

/-- The whole matching loop, folded over the filtered activities in source
order. -/
def matchPhase (inp : SyncInputs) (completedWorkouts : List PelotonWorkout)
    (plannedWorkouts : List PlannedWorkout) : SyncState :=
  completedWorkouts.foldl (processWorkout inp plannedWorkouts) initState

/-- Observable side effects of a run: whether the eligibility query was issued,
and the trace of row updates issued. -/
structure RunTrace where
  queriedStore : Bool
  writes : List (String × String)
deriving DecidableEq, Repr

/-- Embedding of `syncCompletedWorkouts` (completion-sync.ts:60), returning the
summary together with the run's effect trace.  Branches, in source order: a
raised fetch error is caught at the top level; an empty filtered page returns
before any store interaction; a failed eligibility query aborts with a staged
message; an empty eligible set returns a zero-match success; otherwise the
matching loop runs and the summary aggregates its counters. -/
def runSync (inp : SyncInputs) : CompletionSyncResult × RunTrace :=
  match inp.getUserWorkouts pageLimit with
  | .error e =>
      ({ success := false, matched := 0, error := some (e.getD "Unknown error") },
       { queriedStore := false, writes := [] })
  | .ok data =>
      let completedWorkouts := data.filter eligibleWorkout
      if completedWorkouts.length == 0 then
        ({ success := true, matched := 0, error := none },
         { queriedStore := false, writes := [] })
      else
        match inp.fetchPlanned with
        | .error msg =>
            ({ success := false, matched := 0,
               error := some ("Failed to fetch planned workouts: " ++ msg) },
             { queriedStore := true, writes := [] })
        | .ok plannedWorkouts =>
            if plannedWorkouts.length == 0 then
              ({ success := true, matched := 0, error := none },
               { queriedStore := true, writes := [] })
            else
              let final := matchPhase inp completedWorkouts plannedWorkouts
              ({ success := final.failedUpdates == 0,
                 matched := final.successfulUpdates.length,
                 error :=
                   if final.failedUpdates > 0 then
                     some (toString final.failedUpdates ++
                       " workout(s) failed to update in database")
                   else none },
               { queriedStore := true, writes := final.writes })

/-- The summary alone, as the module's caller sees it. -/
def syncCompletedWorkouts (inp : SyncInputs) : CompletionSyncResult :=
  (runSync inp).1

/-! ### Concrete scenarios -/

/-- A duplicate-in-feed scenario for claim C2: the same completed activity
appears twice in the fetched page while two eligible entries for its ride and
date exist.  The duplicate must collapse to a single match. -/
def c2DupInputs : SyncInputs :=
  { getUserWorkouts := fun _ =>
      .ok [⟨"w1", 1705708800, "COMPLETE", some "r1"⟩,
           ⟨"w1", 1705708800, "COMPLETE", some "r1"⟩]
    fetchPlanned :=
      .ok [⟨"p0", "r1", "2024-01-20", 0, none⟩, ⟨"p1", "r1", "2024-01-20", 1, none⟩]
    writeOk := fun _ => true
    timezone := none
    tzEnv := ⟨fun _ => false, fun _ _ => 0, fun _ => 0⟩ }

/-- A write-failure scenario for claim C3 (spec scenario F, arranged so the
failing write comes first): two completions of the same ride and date, two
eligible entries, and a store that rejects the update for entry `p0`. -/
def c3WriteFailInputs : SyncInputs :=
  { getUserWorkouts := fun _ =>
      .ok [⟨"w1", 1705708800, "COMPLETE", some "r1"⟩,
           ⟨"w2", 1705708800, "COMPLETE", some "r1"⟩]
    fetchPlanned :=
      .ok [⟨"p0", "r1", "2024-01-20", 0, none⟩, ⟨"p1", "r1", "2024-01-20", 1, none⟩]
    writeOk := fun i => i != "p0"
    timezone := none
    tzEnv := ⟨fun _ => false, fun _ _ => 0, fun _ => 0⟩ }

/-- A FIFO scenario for claim C4 (spec scenario C): the order-1 entry precedes
the order-0 entry in input order, yet the single completion must match the
order-0 entry. -/
def c4FifoInputs : SyncInputs :=
  { getUserWorkouts := fun _ => .ok [⟨"w1", 1705708800, "COMPLETE", some "r1"⟩]
    fetchPlanned :=
      .ok [⟨"p1", "r1", "2024-01-20", 1, none⟩, ⟨"p0", "r1", "2024-01-20", 0, none⟩]
    writeOk := fun _ => true
    timezone := none
    tzEnv := ⟨fun _ => false, fun _ _ => 0, fun _ => 0⟩ }

/-- A concrete time-zone environment recognising `America/Los_Angeles` with its
winter (PST) shift of −8 hours and a UTC-aligned process-local zone. -/
def laEnv : TzEnv :=
  ⟨fun tz => tz == "America/Los_Angeles", fun _ _ => -28800, fun _ => 0⟩

/-- Two eligible completions against a single eligible entry, for the C6
witness. -/
def c6Inputs : SyncInputs :=
  { getUserWorkouts := fun _ =>
      .ok [⟨"w1", 1705708800, "COMPLETE", some "r1"⟩,
           ⟨"w2", 1705708800, "COMPLETE", some "r1"⟩]
    fetchPlanned := .ok [⟨"p0", "r1", "2024-01-20", 0, none⟩]
    writeOk := fun _ => true
    timezone := none
    tzEnv := ⟨fun _ => false, fun _ _ => 0, fun _ => 0⟩ }

/-- An eligible completion meeting a store whose eligibility query fails, for
the C7 witness. -/
def c7Inputs : SyncInputs :=
  { getUserWorkouts := fun _ => .ok [⟨"w1", 1705708800, "COMPLETE", some "r1"⟩]
    fetchPlanned := .error "connection reset"
    writeOk := fun _ => true
    timezone := none
    tzEnv := ⟨fun _ => false, fun _ _ => 0, fun _ => 0⟩ }

/-- A page holding only ineligible activities (wrong status, missing ride), for
the C8 witness. -/
def c8Inputs : SyncInputs :=
  { getUserWorkouts := fun _ =>
      .ok [⟨"w1", 1705708800, "IN_PROGRESS", some "r1"⟩,
           ⟨"w2", 1705708800, "COMPLETE", none⟩]
    fetchPlanned := .ok [⟨"p0", "r1", "2024-01-20", 0, none⟩]
    writeOk := fun _ => true
    timezone := none
    tzEnv := ⟨fun _ => false, fun _ _ => 0, fun _ => 0⟩ }

/-- A single-activity page, for the C9 witness. -/
def c9Inputs : SyncInputs :=
  { getUserWorkouts := fun _ => .ok [⟨"w1", 1705708800, "COMPLETE", some "r1"⟩]
    fetchPlanned := .ok [⟨"p0", "r1", "2024-01-20", 0, none⟩]
    writeOk := fun _ => true
    timezone := none
    tzEnv := ⟨fun _ => false, fun _ _ => 0, fun _ => 0⟩ }

/-! ### Loop invariant -/

/-- Invariant of the matching loop, relating the run-local trackers to the
trace of issued writes: the attempted entries and consumed activities are
exactly the two projections of the write trace, neither holds a duplicate,
every attempted entry id comes from the fetched eligible rows, and the
success / failure counters classify the writes by their outcome. -/
structure SyncInv (wOk : String → Bool) (psIds : List String) (st : SyncState) :
    Prop where
  attempted_eq : st.attemptedIds = st.writes.map Prod.fst
  consumed_eq : st.matchedPelotonWorkoutIds = st.writes.map Prod.snd
  attempted_nodup : st.attemptedIds.Nodup
  consumed_nodup : st.matchedPelotonWorkoutIds.Nodup
  attempted_sub : ∀ x ∈ st.attemptedIds, x ∈ psIds
  success_eq : st.successfulUpdates = (st.writes.filter fun q => wOk q.1).map Prod.fst
  failed_eq : st.failedUpdates = (st.writes.filter fun q => !(wOk q.1)).length

lemma initState_inv (wOk : String → Bool) (psIds : List String) :
    SyncInv wOk psIds initState := by
  constructor <;> simp [initState]

lemma mem_plannedByDateAndRide {ps : List PlannedWorkout} {dateKey rideId : String}
    {m : PlannedWorkoutMatch} (h : m ∈ plannedByDateAndRide ps dateKey rideId) :
    ∃ pw ∈ ps, toMatch pw = m := by
  unfold plannedByDateAndRide at h
  have h' := (List.perm_insertionSort sortOrderR _).mem_iff.mp h
  obtain ⟨pw, hpw, hm⟩ := List.mem_map.mp h'
  exact ⟨pw, (List.mem_filter.mp hpw).1, hm⟩

lemma mem_plannedByDateAndRide_id {ps : List PlannedWorkout} {dateKey rideId : String}
    {m : PlannedWorkoutMatch} (h : m ∈ plannedByDateAndRide ps dateKey rideId) :
    m.id ∈ ps.map PlannedWorkout.id := by
  obtain ⟨pw, hpw, hm⟩ := mem_plannedByDateAndRide h
  exact List.mem_map.mpr ⟨pw, hpw, by rw [← hm]; rfl⟩

lemma processWorkout_inv {inp : SyncInputs} {ps : List PlannedWorkout}
    {st : SyncState} {w : PelotonWorkout}
    (h : SyncInv inp.writeOk (ps.map PlannedWorkout.id) st) :
    SyncInv inp.writeOk (ps.map PlannedWorkout.id) (processWorkout inp ps st w) := by
  unfold processWorkout
  cases hcont : st.matchedPelotonWorkoutIds.contains w.id with
  | true => simpa [hcont] using h
  | false =>
    simp only [hcont, Bool.false_eq_true, if_false]
    cases hfind : (plannedByDateAndRide ps
        (timestampToDateInTimezone inp.tzEnv w.created_at inp.timezone)
        (w.ride.getD "")).find? (fun c => !(st.attemptedIds.contains c.id)) with
    | none => simpa using h
    | some m =>
      have hpred : m.id ∉ st.attemptedIds := by
        have := List.find?_some hfind
        simpa using this
      have hwid : w.id ∉ st.matchedPelotonWorkoutIds := by
        simpa using hcont
      have hmid : m.id ∈ ps.map PlannedWorkout.id :=
        mem_plannedByDateAndRide_id (List.mem_of_find?_eq_some hfind)
      have hsub : ∀ x ∈ st.attemptedIds ++ [m.id], x ∈ ps.map PlannedWorkout.id := by
        intro x hx
        rcases List.mem_append.mp hx with hx | hx
        · exact h.attempted_sub x hx
        · rw [List.mem_singleton.mp hx]; exact hmid
      dsimp only
      cases hw : inp.writeOk m.id with
      | true =>
        rw [if_pos rfl]
        exact
          { attempted_eq := by simp [h.attempted_eq]
            consumed_eq := by simp [h.consumed_eq]
            attempted_nodup := by simp [List.nodup_append, h.attempted_nodup, hpred]
            consumed_nodup := by simp [List.nodup_append, h.consumed_nodup, hwid]
            attempted_sub := hsub
            success_eq := by simp [h.success_eq, List.filter_append, hw]
            failed_eq := by simp [h.failed_eq, List.filter_append, hw] }
      | false =>
        rw [if_neg (by simp)]
        exact
          { attempted_eq := by simp [h.attempted_eq]
            consumed_eq := by simp [h.consumed_eq]
            attempted_nodup := by simp [List.nodup_append, h.attempted_nodup, hpred]
            consumed_nodup := by simp [List.nodup_append, h.consumed_nodup, hwid]
            attempted_sub := hsub
            success_eq := by simp [h.success_eq, List.filter_append, hw]
            failed_eq := by simp [h.failed_eq, List.filter_append, hw] }

lemma foldl_processWorkout_inv (inp : SyncInputs) (ps : List PlannedWorkout)
    (acts : List PelotonWorkout) {st : SyncState}
    (h : SyncInv inp.writeOk (ps.map PlannedWorkout.id) st) :
    SyncInv inp.writeOk (ps.map PlannedWorkout.id)
      (acts.foldl (processWorkout inp ps) st) := by
  induction acts generalizing st with
  | nil => exact h
  | cons a as ih => exact ih (processWorkout_inv h)

lemma matchPhase_inv (inp : SyncInputs) (acts : List PelotonWorkout)
    (ps : List PlannedWorkout) :
    SyncInv inp.writeOk (ps.map PlannedWorkout.id) (matchPhase inp acts ps) :=
  foldl_processWorkout_inv inp ps acts (initState_inv _ _)

lemma processWorkout_writes_length (inp : SyncInputs) (ps : List PlannedWorkout)
    (st : SyncState) (w : PelotonWorkout) :
    (processWorkout inp ps st w).writes.length ≤ st.writes.length + 1 := by
  unfold processWorkout
  cases hcont : st.matchedPelotonWorkoutIds.contains w.id with
  | true => simp
  | false =>
    simp only [hcont, Bool.false_eq_true, if_false]
    cases hfind : (plannedByDateAndRide ps
        (timestampToDateInTimezone inp.tzEnv w.created_at inp.timezone)
        (w.ride.getD "")).find? (fun c => !(st.attemptedIds.contains c.id)) with
    | none => simp
    | some m =>
      cases hw : inp.writeOk m.id with
      | true => simp [hw]
      | false => simp [hw]

lemma foldl_processWorkout_writes_length (inp : SyncInputs)
    (ps : List PlannedWorkout) (acts : List PelotonWorkout) (st : SyncState) :
    (acts.foldl (processWorkout inp ps) st).writes.length ≤
      st.writes.length + acts.length := by
  induction acts generalizing st with
  | nil => simp
  | cons a as ih =>
    calc ((a :: as).foldl (processWorkout inp ps) st).writes.length
        ≤ (processWorkout inp ps st a).writes.length + as.length := ih _
      _ ≤ st.writes.length + 1 + as.length :=
          Nat.add_le_add_right (processWorkout_writes_length inp ps st a) _
      _ = st.writes.length + (a :: as).length := by simp; omega

/-! ### Branch lemmas for `runSync` -/

lemma runSync_fetch_error {inp : SyncInputs} {e : Option String}
    (ha : inp.getUserWorkouts pageLimit = .error e) :
    runSync inp =
      ({ success := false, matched := 0, error := some (e.getD "Unknown error") },
       { queriedStore := false, writes := [] }) := by
  unfold runSync
  rw [ha]

lemma runSync_empty_filter {inp : SyncInputs} {data : List PelotonWorkout}
    (ha : inp.getUserWorkouts pageLimit = .ok data)
    (he : data.filter eligibleWorkout = []) :
    runSync inp =
      ({ success := true, matched := 0, error := none },
       { queriedStore := false, writes := [] }) := by
  unfold runSync
  rw [ha]
  simp [he]

lemma runSync_query_error {inp : SyncInputs} {data : List PelotonWorkout} {msg : String}
    (ha : inp.getUserWorkouts pageLimit = .ok data)
    (hne : data.filter eligibleWorkout ≠ [])
    (hp : inp.fetchPlanned = .error msg) :
    runSync inp =
      ({ success := false, matched := 0,
         error := some ("Failed to fetch planned workouts: " ++ msg) },
       { queriedStore := true, writes := [] }) := by
  unfold runSync
  rw [ha]
  simp [hne, hp]

lemma runSync_empty_planned {inp : SyncInputs} {data : List PelotonWorkout}
    (ha : inp.getUserWorkouts pageLimit = .ok data)
    (hne : data.filter eligibleWorkout ≠ [])
    (hp : inp.fetchPlanned = .ok ([] : List PlannedWorkout)) :
    runSync inp =
      ({ success := true, matched := 0, error := none },
       { queriedStore := true, writes := [] }) := by
  unfold runSync
  rw [ha]
  simp [hne, hp]

lemma runSync_main {inp : SyncInputs} {data : List PelotonWorkout}
    {ps : List PlannedWorkout}
    (ha : inp.getUserWorkouts pageLimit = .ok data)
    (hne : data.filter eligibleWorkout ≠ [])
    (hp : inp.fetchPlanned = .ok ps) (hps : ps ≠ []) :
    runSync inp =
      ({ success := (matchPhase inp (data.filter eligibleWorkout) ps).failedUpdates == 0,
         matched := (matchPhase inp (data.filter eligibleWorkout) ps).successfulUpdates.length,
         error :=
           if (matchPhase inp (data.filter eligibleWorkout) ps).failedUpdates > 0 then
             some (toString (matchPhase inp (data.filter eligibleWorkout) ps).failedUpdates ++
               " workout(s) failed to update in database")
           else none },
       { queriedStore := true,
         writes := (matchPhase inp (data.filter eligibleWorkout) ps).writes }) := by
  unfold runSync
  rw [ha]
  simp [hne, hp, hps, matchPhase]

/-! ### Bounds on the matched count -/

lemma matchPhase_matched_le_acts (inp : SyncInputs) (acts : List PelotonWorkout)
    (ps : List PlannedWorkout) :
    (matchPhase inp acts ps).successfulUpdates.length ≤ acts.length := by
  have hinv := matchPhase_inv inp acts ps
  have h1 : (matchPhase inp acts ps).successfulUpdates.length ≤
      (matchPhase inp acts ps).writes.length := by
    rw [hinv.success_eq, List.length_map]
    exact List.length_filter_le _ _
  have h2 := foldl_processWorkout_writes_length inp ps acts initState
  simp only [matchPhase] at h1 ⊢
  simp only [show initState.writes = [] from rfl, List.length_nil, Nat.zero_add] at h2
  omega

lemma matchPhase_matched_le_planned (inp : SyncInputs) (acts : List PelotonWorkout)
    (ps : List PlannedWorkout) :
    (matchPhase inp acts ps).successfulUpdates.length ≤ ps.length := by
  have hinv := matchPhase_inv inp acts ps
  have h1 : (matchPhase inp acts ps).successfulUpdates.length ≤
      (matchPhase inp acts ps).attemptedIds.length := by
    rw [hinv.success_eq, hinv.attempted_eq, List.length_map, List.length_map]
    exact List.length_filter_le _ _
  have h2 : (matchPhase inp acts ps).attemptedIds.length ≤
      (ps.map PlannedWorkout.id).length :=
    (hinv.attempted_nodup.subperm fun x hx => hinv.attempted_sub x hx).length_le
  rw [List.length_map] at h2
  omega

lemma runSync_matched_le_acts (inp : SyncInputs) {data : List PelotonWorkout}
    (ha : inp.getUserWorkouts pageLimit = .ok data) :
    (runSync inp).1.matched ≤ (data.filter eligibleWorkout).length := by
  by_cases he : data.filter eligibleWorkout = []
  · rw [runSync_empty_filter ha he]; simp
  · rcases hp : inp.fetchPlanned with msg | ps
    · rw [runSync_query_error ha he hp]; simp
    · by_cases hps : ps = []
      · rw [runSync_empty_planned ha he (hps ▸ hp)]; simp
      · rw [runSync_main ha he hp hps]
        simpa using matchPhase_matched_le_acts inp (data.filter eligibleWorkout) ps

lemma runSync_matched_le_planned (inp : SyncInputs) {data : List PelotonWorkout}
    {ps : List PlannedWorkout}
    (ha : inp.getUserWorkouts pageLimit = .ok data)
    (hp : inp.fetchPlanned = .ok ps) :
    (runSync inp).1.matched ≤ ps.length := by
  by_cases he : data.filter eligibleWorkout = []
  · rw [runSync_empty_filter ha he]; simp
  · by_cases hps : ps = []
    · rw [runSync_empty_planned ha he (hps ▸ hp)]; simp
    · rw [runSync_main ha he hp hps]
      simpa using matchPhase_matched_le_planned inp (data.filter eligibleWorkout) ps

/-! ### Validity of the civil-date computation -/

lemma civilFromDays_valid (z : Int) :
    1 ≤ (civilFromDays z).2.1 ∧ (civilFromDays z).2.1 ≤ 12 ∧
      1 ≤ (civilFromDays z).2.2 ∧ (civilFromDays z).2.2 ≤ 31 := by
  unfold civilFromDays
  dsimp only
  split <;> omega

/-! ### Claims -/

/-- Claim C1: in every run of `syncCompletedWorkouts`, each planned-entry
identity receives at most one persistence write attempt — the trace of update
calls issued to the store never repeats an entry id.  The mechanism is the one
the spec names: `processWorkout` appends the selected id to `attemptedIds`
before the write outcome is consulted, and candidate selection refuses ids
already in `attemptedIds`, so a failed write is never retried within the run. -/
theorem claim_C1_one_write_attempt_per_entry (inp : SyncInputs) :
    ((runSync inp).2.writes.map Prod.fst).Nodup := by
  rcases ha : inp.getUserWorkouts pageLimit with e | data
  · rw [runSync_fetch_error ha]; simp
  · by_cases he : data.filter eligibleWorkout = []
    · rw [runSync_empty_filter ha he]; simp
    · rcases hp : inp.fetchPlanned with msg | ps
      · rw [runSync_query_error ha he hp]; simp
      · by_cases hps : ps = []
        · rw [runSync_empty_planned ha he (hps ▸ hp)]; simp
        · rw [runSync_main ha he hp hps]
          have hinv := matchPhase_inv inp (data.filter eligibleWorkout) ps
          exact hinv.attempted_eq ▸ hinv.attempted_nodup

/-- Claim C2: in every run, a completed-activity identity is consumed by at
most one planned entry — the activity-id projection of the write trace never
repeats — and, concretely, a feed carrying the same activity twice against two
eligible entries produces exactly one write: the duplicate occurrence collapses
instead of consuming the second entry. -/
theorem claim_C2_activity_consumed_once (inp : SyncInputs) :
    ((runSync inp).2.writes.map Prod.snd).Nodup ∧
      runSync c2DupInputs =
        ({ success := true, matched := 1, error := none },
         { queriedStore := true, writes := [("p0", "w1")] }) := by
  refine ⟨?_, by decide⟩
  rcases ha : inp.getUserWorkouts pageLimit with e | data
  · rw [runSync_fetch_error ha]; simp
  · by_cases he : data.filter eligibleWorkout = []
    · rw [runSync_empty_filter ha he]; simp
    · rcases hp : inp.fetchPlanned with msg | ps
      · rw [runSync_query_error ha he hp]; simp
      · by_cases hps : ps = []
        · rw [runSync_empty_planned ha he (hps ▸ hp)]; simp
        · rw [runSync_main ha he hp hps]
          have hinv := matchPhase_inv inp (data.filter eligibleWorkout) ps
          exact hinv.consumed_eq ▸ hinv.consumed_nodup

/-- Claim C10: on every return path of `syncCompletedWorkouts` — caught fetch
exception, empty filtered page, failed eligibility query, empty eligible set,
and normal completion — the summary's `success` flag is `true` exactly when its
`error` field is absent. -/
theorem claim_C10_success_iff_no_error (inp : SyncInputs) :
    (runSync inp).1.success = true ↔ (runSync inp).1.error = none := by
  rcases ha : inp.getUserWorkouts pageLimit with e | data
  · rw [runSync_fetch_error ha]; simp
  · by_cases he : data.filter eligibleWorkout = []
    · rw [runSync_empty_filter ha he]; simp
    · rcases hp : inp.fetchPlanned with msg | ps
      · rw [runSync_query_error ha he hp]; simp
      · by_cases hps : ps = []
        · rw [runSync_empty_planned ha he (hps ▸ hp)]; simp
        · rw [runSync_main ha he hp hps]
          rcases Nat.eq_zero_or_pos
              (matchPhase inp (data.filter eligibleWorkout) ps).failedUpdates with hf | hf
          · simp [hf]
          · simp only [Fin.isValue]
            constructor
            · intro hs
              simp at hs
              omega
            · intro herr
              simp [hf] at herr

/-- Claim C3: whenever the fetch and the eligibility query succeed, the summary
has `success = true` iff zero issued writes failed, `matched` equal to the
number of successful writes, and, when at least one write failed, an error
message stating how many writes failed.  The concrete conjunct is scenario F
with the failing write first: the run continues past the failure and still
matches the remaining activity. -/
theorem claim_C3_write_failure_summary {inp : SyncInputs}
    {acts : List PelotonWorkout} {ps : List PlannedWorkout}
    (ha : inp.getUserWorkouts pageLimit = .ok acts)
    (hp : inp.fetchPlanned = .ok ps) :
    ((runSync inp).1.success = true ↔
      ((runSync inp).2.writes.filter fun q => !inp.writeOk q.1).length = 0) ∧
    (runSync inp).1.matched =
      ((runSync inp).2.writes.filter fun q => inp.writeOk q.1).length ∧
    (0 < ((runSync inp).2.writes.filter fun q => !inp.writeOk q.1).length →
      (runSync inp).1.error =
        some (toString ((runSync inp).2.writes.filter
            fun q => !inp.writeOk q.1).length ++
          " workout(s) failed to update in database")) ∧
    runSync c3WriteFailInputs =
      ({ success := false, matched := 1,
         error := some "1 workout(s) failed to update in database" },
       { queriedStore := true, writes := [("p0", "w1"), ("p1", "w2")] }) := by
  by_cases he : acts.filter eligibleWorkout = []
  · rw [runSync_empty_filter ha he]
    exact ⟨by simp, by simp, by simp, by decide⟩
  · by_cases hps : ps = []
    · rw [runSync_empty_planned ha he (hps ▸ hp)]
      exact ⟨by simp, by simp, by simp, by decide⟩
    · rw [runSync_main ha he hp hps]
      have hinv := matchPhase_inv inp (acts.filter eligibleWorkout) ps
      dsimp only
      refine ⟨?_, ?_, ?_, by decide⟩
      · rw [← hinv.failed_eq]
        simp
      · rw [hinv.success_eq, List.length_map]
      · intro hpos
        rw [← hinv.failed_eq] at hpos ⊢
        rw [if_pos hpos]

/-- Claim C4: every candidate bucket is ordered by `sort_order` ascending, with
ties broken by stable input order — for each order-index value, the bucket's
entries with that value appear exactly as the eligible rows do in input order
(first seen wins).  Matching then takes the first not-yet-attempted candidate
of that sequence (`find?` at completion-sync.ts:155).  Concretely, with two
eligible entries for one ride and date carrying order indices 1 and 0, a single
completion matches the order-0 entry and leaves the order-1 entry unmatched. -/
theorem claim_C4_candidate_order (ps : List PlannedWorkout) (dateKey rideId : String) :
    (plannedByDateAndRide ps dateKey rideId).Sorted sortOrderR ∧
    (∀ v : Int,
      (plannedByDateAndRide ps dateKey rideId).filter (fun c => c.sort_order == v) =
        ((ps.filter fun pw =>
            pw.scheduled_date == dateKey && pw.peloton_ride_id == rideId).map
          toMatch).filter (fun c => c.sort_order == v)) ∧
    runSync c4FifoInputs =
      ({ success := true, matched := 1, error := none },
       { queriedStore := true, writes := [("p0", "w1")] }) := by
  refine ⟨List.sorted_insertionSort _ _, ?_, by decide⟩
  intro v
  set l := (ps.filter fun pw =>
      pw.scheduled_date == dateKey && pw.peloton_ride_id == rideId).map toMatch with hl
  have hplan : plannedByDateAndRide ps dateKey rideId = List.insertionSort sortOrderR l := rfl
  rw [hplan]
  have hpair : (l.filter fun c => c.sort_order == v).Pairwise sortOrderR := by
    apply List.pairwise_of_forall_mem_list
    intro a ha b hb
    have ha' := (List.mem_filter.mp ha).2
    have hb' := (List.mem_filter.mp hb).2
    simp only [beq_iff_eq] at ha' hb'
    unfold sortOrderR
    omega
  have hsub : List.Sublist (l.filter fun c => c.sort_order == v)
      (List.insertionSort sortOrderR l) :=
    List.sublist_insertionSort hpair (List.filter_sublist l)
  have hsub2 : List.Sublist (l.filter fun c => c.sort_order == v)
      ((List.insertionSort sortOrderR l).filter fun c => c.sort_order == v) := by
    have h2 := hsub.filter (fun c => c.sort_order == v)
    rwa [List.filter_eq_self.mpr fun a ha => (List.mem_filter.mp ha).2] at h2
  have hlen := ((List.perm_insertionSort sortOrderR l).filter
      (fun c => c.sort_order == v)).length_eq
  exact (hsub2.eq_of_length (by omega)).symm

/-- Claim C5: calendar-date resolution is total and always yields a
`yyyy-MM-dd` rendering of a civil date with a valid month and day (it never
fails the run); an absent zone, and a supplied but unrecognised zone, both fall
back to the process-local interpretation rather than erroring; a valid zone
converts the instant by that zone's shift; and concretely
`2024-01-20T06:00:00Z` (Unix `1705730400`) in `America/Los_Angeles` resolves to
`2024-01-19`. -/
theorem claim_C5_calendar_resolution (env : TzEnv) (ts : Int) (tz : Option String) :
    (∃ y m d : Int, timestampToDateInTimezone env ts tz = formatYMD (y, m, d) ∧
        1 ≤ m ∧ m ≤ 12 ∧ 1 ≤ d ∧ d ≤ 31) ∧
    timestampToDateInTimezone env ts none =
      formatYMD (civilFromDays ((ts + env.localOffset ts) / 86400)) ∧
    (∀ s : String, env.validTz s = false →
      timestampToDateInTimezone env ts (some s) =
        formatYMD (civilFromDays ((ts + env.localOffset ts) / 86400))) ∧
    (∀ s : String, s ≠ "" → env.validTz s = true →
      timestampToDateInTimezone env ts (some s) =
        formatYMD (civilFromDays ((ts + env.tzOffset s ts) / 86400))) ∧
    timestampToDateInTimezone laEnv 1705730400 (some "America/Los_Angeles") =
      "2024-01-19" := by
  have key : ∀ off : Int, ∃ y m d : Int,
      formatYMD (civilFromDays ((ts + off) / 86400)) = formatYMD (y, m, d) ∧
      1 ≤ m ∧ m ≤ 12 ∧ 1 ≤ d ∧ d ≤ 31 := by
    intro off
    obtain ⟨h1, h2, h3, h4⟩ := civilFromDays_valid ((ts + off) / 86400)
    exact ⟨(civilFromDays ((ts + off) / 86400)).1,
      (civilFromDays ((ts + off) / 86400)).2.1,
      (civilFromDays ((ts + off) / 86400)).2.2, rfl, h1, h2, h3, h4⟩
  refine ⟨?_, rfl, ?_, ?_, by decide⟩
  · cases tz with
    | none => exact key (env.localOffset ts)
    | some s =>
      by_cases hcond : (s != "" && env.validTz s) = true
      · have heq : timestampToDateInTimezone env ts (some s) =
            formatYMD (civilFromDays ((ts + env.tzOffset s ts) / 86400)) := by
          simp only [timestampToDateInTimezone]
          rw [if_pos hcond]
        rw [heq]; exact key _
      · have heq : timestampToDateInTimezone env ts (some s) =
            formatYMD (civilFromDays ((ts + env.localOffset ts) / 86400)) := by
          simp only [timestampToDateInTimezone]
          rw [if_neg hcond]
        rw [heq]; exact key _
  · intro s hs
    simp only [timestampToDateInTimezone]
    rw [if_neg (by simp [hs])]
  · intro s hs1 hs2
    simp only [timestampToDateInTimezone]
    rw [if_pos (by simp [hs1, hs2])]

/-- Claim C6: whenever both collaborator reads succeed, the matched count is at
most the minimum of the number of eligible completed activities and the number
of eligible planned entries the store returned. -/
theorem claim_C6_matched_le_min {inp : SyncInputs} {acts : List PelotonWorkout}
    {ps : List PlannedWorkout}
    (ha : inp.getUserWorkouts pageLimit = .ok acts)
    (hp : inp.fetchPlanned = .ok ps) :
    (runSync inp).1.matched ≤ min (acts.filter eligibleWorkout).length ps.length :=
  Nat.le_min.mpr ⟨runSync_matched_le_acts inp ha, runSync_matched_le_planned inp ha hp⟩

theorem claim_C6_witness :
    (runSync c6Inputs).1.matched ≤
      min (([⟨"w1", 1705708800, "COMPLETE", some "r1"⟩,
             ⟨"w2", 1705708800, "COMPLETE", some "r1"⟩] :
          List PelotonWorkout).filter eligibleWorkout).length
        ([(⟨"p0", "r1", "2024-01-20", 0, none⟩ : PlannedWorkout)]).length :=
  claim_C6_matched_le_min rfl rfl

/-- Claim C7: a failed eligibility query aborts the run with
`success = false`, `matched = 0`, the underlying error description prefixed by
the failing stage, and no persistence writes attempted. -/
theorem claim_C7_query_failure_aborts {inp : SyncInputs}
    {acts : List PelotonWorkout} {msg : String}
    (ha : inp.getUserWorkouts pageLimit = .ok acts)
    (hne : acts.filter eligibleWorkout ≠ [])
    (hp : inp.fetchPlanned = .error msg) :
    runSync inp =
      ({ success := false, matched := 0,
         error := some ("Failed to fetch planned workouts: " ++ msg) },
       { queriedStore := true, writes := [] }) :=
  runSync_query_error ha hne hp

theorem claim_C7_witness :
    runSync c7Inputs =
      ({ success := false, matched := 0,
         error := some ("Failed to fetch planned workouts: " ++ "connection reset") },
       { queriedStore := true, writes := [] }) :=
  claim_C7_query_failure_aborts rfl (by decide) rfl

/-- Claim C8: when the fetched activities filter down to the empty set, the run
returns a zero-match success immediately, with no store read and no write. -/
theorem claim_C8_empty_filter_no_store_interaction {inp : SyncInputs}
    {acts : List PelotonWorkout}
    (ha : inp.getUserWorkouts pageLimit = .ok acts)
    (he : acts.filter eligibleWorkout = []) :
    runSync inp =
      ({ success := true, matched := 0, error := none },
       { queriedStore := false, writes := [] }) :=
  runSync_empty_filter ha he

theorem claim_C8_witness :
    runSync c8Inputs =
      ({ success := true, matched := 0, error := none },
       { queriedStore := false, writes := [] }) :=
  claim_C8_empty_filter_no_store_interaction rfl (by decide)

/-- Claim C9: the fetch requests a fixed page of `pageLimit = 20` activities,
so whenever the activity source honours the requested limit, the matched count
of the returned summary is at most 20: each successful write consumes a
distinct fetched activity. -/
theorem claim_C9_matched_le_page_limit (inp : SyncInputs)
    (hcap : ∀ l, inp.getUserWorkouts pageLimit = .ok l → l.length ≤ pageLimit) :
    (runSync inp).1.matched ≤ 20 := by
  rcases ha : inp.getUserWorkouts pageLimit with e | data
  · rw [runSync_fetch_error ha]; simp
  · have h1 := runSync_matched_le_acts inp ha
    have h2 : (data.filter eligibleWorkout).length ≤ data.length :=
      List.length_filter_le _ _
    have h3 := hcap data ha
    have h4 : pageLimit = 20 := rfl
    omega

theorem claim_C9_witness : (runSync c9Inputs).1.matched ≤ 20 :=
  claim_C9_matched_le_page_limit c9Inputs (by
    intro l hl
    injection hl with h
    rw [← h]
    decide)

/-- Witness for claim C3, instantiating the summary properties at the
partial-failure scenario. -/
theorem claim_C3_witness :
    ((runSync c3WriteFailInputs).1.success = true ↔
      ((runSync c3WriteFailInputs).2.writes.filter
        fun q => !c3WriteFailInputs.writeOk q.1).length = 0) ∧
    (runSync c3WriteFailInputs).1.matched =
      ((runSync c3WriteFailInputs).2.writes.filter
        fun q => c3WriteFailInputs.writeOk q.1).length ∧
    (0 < ((runSync c3WriteFailInputs).2.writes.filter
        fun q => !c3WriteFailInputs.writeOk q.1).length →
      (runSync c3WriteFailInputs).1.error =
        some (toString ((runSync c3WriteFailInputs).2.writes.filter
            fun q => !c3WriteFailInputs.writeOk q.1).length ++
          " workout(s) failed to update in database")) ∧
    runSync c3WriteFailInputs =
      ({ success := false, matched := 1,
         error := some "1 workout(s) failed to update in database" },
       { queriedStore := true, writes := [("p0", "w1"), ("p1", "w2")] }) :=
  claim_C3_write_failure_summary rfl rfl

/-- Witness for claim C5, instantiating the fallback and valid-zone equations
at the concrete environment. -/
theorem claim_C5_witness :
    timestampToDateInTimezone laEnv 1705730400 (some "UTC") =
      formatYMD (civilFromDays ((1705730400 + laEnv.localOffset 1705730400) / 86400)) ∧
    timestampToDateInTimezone laEnv 1705730400 (some "America/Los_Angeles") =
      formatYMD (civilFromDays
        ((1705730400 + laEnv.tzOffset "America/Los_Angeles" 1705730400) / 86400)) :=
  ⟨(claim_C5_calendar_resolution laEnv 1705730400 none).2.2.1 "UTC" (by decide),
   (claim_C5_calendar_resolution laEnv 1705730400 none).2.2.2.1 "America/Los_Angeles"
     (by decide) (by decide)⟩

end CompletionSync
